import Mathlib

/-!
A verification model of the kontrol Postgres registry storage engine
(kontrol/postgres.go of the kite repository): hierarchical identity
matching, version-constraint resolution, transactional upsert-as-heartbeat
semantics, and time-based eviction.

Modelling conventions:
* The database table `kite` is a `List Row`; timestamps are `Int`
  nanoseconds (Go `time.Time` / `time.Duration` have nanosecond
  resolution).
* External collaborators (`database/sql` failures, `net/url.Parse`, the
  hashicorp `go-version` library, `Kites.Filter`/`Kites.Shuffle`) are
  abstracted as explicit parameters: a store failure is an injected
  `Option String` fault, `url.Parse` is an abstract
  `String → Except String Unit`, and so on.  The control flow around them
  is translated from the source.
* Repository code referenced by the source but outside this file
  (`keyOrder`, `KontrolQuery.Fields`, `Kite.Values`) is modelled from the
  spec and marked as such in its doc comment.
-/

namespace Kontrol

/-- Identity of a registered kite instance (protocol.Kite identity fields). -/
structure Kite where
  username : String
  environment : String
  name : String
  version : String
  region : String
  hostname : String
  id : String
  deriving DecidableEq

/-- Sparse identity filter (protocol.KontrolQuery): every field optional. -/
structure KontrolQuery where
  username : String
  environment : String
  name : String
  version : String
  region : String
  hostname : String
  id : String
  deriving DecidableEq

/-- One row of the `kite` table: identity columns (with `name` stored as
`kitename`), url, and the two timestamps. -/
structure Row where
  username : String
  environment : String
  kitename : String
  version : String
  region : String
  hostname : String
  id : String
  url : String
  created_at : Int
  updated_at : Int
  deriving DecidableEq

/-- Modelled from the spec: `keyOrder`, the fixed ordered list of identity
fields (defined in the kontrol package outside this file): username,
environment, name, version, region, hostname, id. -/
def keyOrder : List String :=
  ["username", "environment", "name", "version", "region", "hostname", "id"]

/-- Modelled from the spec: `KontrolQuery.Fields` (defined outside this file)
maps each identity field name to the corresponding field of the query. -/
def KontrolQuery.fieldsMap (q : KontrolQuery) : String → String := fun key =>
  if key = "username" then q.username
  else if key = "environment" then q.environment
  else if key = "name" then q.name
  else if key = "version" then q.version
  else if key = "region" then q.region
  else if key = "hostname" then q.hostname
  else if key = "id" then q.id
  else ""

/-- Embedding of `selectQuery`: walks `keyOrder`, a non-empty field
contributes an equality clause (column, value) with `name` renamed to the
column `kitename`, an empty field is skipped with `continue`; an empty
clause list is rejected with an error. -/
def selectQuery (q : KontrolQuery) : Except String (List (String × String)) :=
  let andQuery := keyOrder.foldl
    (fun acc key =>
      if q.fieldsMap key = "" then acc
      else acc ++ [(if key = "name" then "kitename" else key, q.fieldsMap key)])
    []
  if andQuery = [] then Except.error "all query fields are empty"
  else Except.ok andQuery

/-- Value of a named column of a row, as the SQL `WHERE column = value`
predicate reads it. -/
def Row.colVal (r : Row) : String → String := fun c =>
  if c = "username" then r.username
  else if c = "environment" then r.environment
  else if c = "kitename" then r.kitename
  else if c = "version" then r.version
  else if c = "region" then r.region
  else if c = "hostname" then r.hostname
  else if c = "id" then r.id
  else if c = "url" then r.url
  else ""

/-- A row satisfies the conjunction of equality clauses. -/
def rowMatches (clauses : List (String × String)) (r : Row) : Bool :=
  clauses.all (fun cv => r.colVal cv.1 == cv.2)

/-- Go `strings.TrimRight(s, "/")`: removes all trailing slash characters. -/
def trimRightSlash (s : String) : String :=
  String.mk ((s.data.reverse.dropWhile (fun c => c = '/')).reverse)

/-- Environment abstracting the external collaborators of `Get`: the
go-version library (`NewVersion` success as a predicate, `NewConstraint`
producing an abstract constraint of type `VC`), the `Kites.Filter` and
`Kites.Shuffle` post-processing steps (repository code outside this file,
kept fully abstract), and a possible failure of the database query or the
row scan (collapsed into one injected fault). -/
structure GetEnv (VC : Type) where
  newVersionOk : String → Bool
  newConstraint : String → Except String VC
  filterK : List Row → VC → String → List Row
  shuffleK : List Row → List Row
  queryErr : Option String

/-- The rebuilt query of `Get`'s constraint branch: only username,
environment and name are carried over; version, region, hostname and id
are left empty. -/
def nameOnlyQuery (q : KontrolQuery) : KontrolQuery :=
  { username := q.username, environment := q.environment, name := q.name,
    version := "", region := "", hostname := "", id := "" }

/-- The retained identity suffix of `Get`'s constraint branch:
`"/" + strings.TrimRight(region + "/" + hostname + "/" + id, "/")`. -/
def keyRestOf (q : KontrolQuery) : String :=
  "/" ++ trimRightSlash (q.region ++ "/" ++ q.hostname ++ "/" ++ q.id)

/-- Query-planning prefix of `Get`: build the SQL predicate with
`selectQuery`; when the version field is non-empty and is not an exact
version, parse it as a constraint (propagating a parse failure), rebuild
the predicate from `nameOnlyQuery` and retain `keyRestOf` for post-fetch
filtering. -/
def getPlan {VC : Type} (env : GetEnv VC) (q : KontrolQuery) :
    Except String (List (String × String) × Option (VC × String)) :=
  match selectQuery q with
  | Except.error e => Except.error e
  | Except.ok clauses =>
    if !env.newVersionOk q.version && q.version != "" then
      match env.newConstraint q.version with
      | Except.error e => Except.error e
      | Except.ok vc =>
        match selectQuery (nameOnlyQuery q) with
        | Except.error e => Except.error e
        | Except.ok clauses2 => Except.ok (clauses2, some (vc, keyRestOf q))
    else Except.ok (clauses, none)

/-- Embedding of `Postgres.Get`: plan the query, execute the fetch (the
rows of `db` matching the predicate, unless the injected query fault
fires), return a single matching row unchanged, otherwise apply the
version-constraint filter when one is active and shuffle the result. -/
def Get {VC : Type} (env : GetEnv VC) (db : List Row) (q : KontrolQuery) :
    Except String (List Row) :=
  match getPlan env q with
  | Except.error e => Except.error e
  | Except.ok (clauses, copt) =>
    match env.queryErr with
    | some e => Except.error e
    | none =>
      let kites := db.filter (fun r => rowMatches clauses r)
      if kites.length = 1 then Except.ok kites
      else
        match copt with
        | some (vc, keyRest) => Except.ok (env.shuffleK (env.filterK kites vc keyRest))
        | none => Except.ok (env.shuffleK kites)

/-- Modelled from the spec: `protocol.Kite.Values` (defined outside this
file) lists the identity field values in the fixed hierarchical order. -/
def Kite.values (k : Kite) : List String :=
  [k.username, k.environment, k.name, k.version, k.region, k.hostname, k.id]

/-- Embedding of `insertQuery`: the column list and the values, the url
appended after the identity values. -/
def insertQuery (k : Kite) (url : String) : List String × List String :=
  (["username", "environment", "kitename", "version", "region", "hostname",
    "id", "url"],
   k.values ++ [url])

/-- The row a successful INSERT built by `insertQuery` creates: identity
columns and url from the statement, `created_at` and `updated_at` from the
table defaults (now, UTC). -/
def insertRow (k : Kite) (url : String) (now : Int) : Row :=
  { username := k.username, environment := k.environment, kitename := k.name,
    version := k.version, region := k.region, hostname := k.hostname,
    id := k.id, url := url, created_at := now, updated_at := now }

/-- Effect on one row of the UPDATE statement shared by `Upsert` and
`Update`: `SET url = $1, updated_at = now() WHERE id = $2`; every other
column, and every row with a different id, is untouched. -/
def refreshRow (id url : String) (now : Int) (r : Row) : Row :=
  if r.id = id then { r with url := url, updated_at := now } else r

/-- Injected store faults for the steps of `Upsert`'s transaction: `Begin`,
the UPDATE `Exec`, `RowsAffected`, building the insert statement (`ToSql`),
the INSERT `Exec`, `Rollback` and `Commit`. `none` means the step
succeeds. -/
structure TxFaults where
  beginErr : Option String
  updateErr : Option String
  rowsAffectedErr : Option String
  insertBuildErr : Option String
  insertErr : Option String
  rollbackErr : Option String
  commitErr : Option String

/-- Body of `Upsert`'s transaction, before the deferred rollback/commit:
returns the error the body finished with and the transaction-local table
state. The UPDATE refreshes every row whose id matches; its
`RowsAffected` is the number of such rows; when it is non-zero the body
returns success (heartbeat path), otherwise the INSERT appends the new
row. -/
def upsertBody (f : TxFaults) (now : Int) (db : List Row) (k : Kite)
    (u : String) : Option String × List Row :=
  match f.updateErr with
  | some e => (some e, db)
  | none =>
    let txdb := db.map (refreshRow k.id u now)
    match f.rowsAffectedErr with
    | some e => (some e, db)
    | none =>
      if (db.filter (fun r => r.id == k.id)).length ≠ 0 then (none, txdb)
      else
        match f.insertBuildErr with
        | some e => (some e, db)
        | none =>
          match f.insertErr with
          | some e => (some e, db)
          | none => (none, txdb ++ [insertRow k u now])

/-- Embedding of `Postgres.Upsert`: validate the url, begin a transaction,
run `upsertBody`, then the deferred handler: on a body error it runs
`tx.Rollback()` and ASSIGNS its result to the returned error (the source
writes `err = tx.Rollback()`), discarding the body's error; on body
success it commits, and a commit failure leaves the store unchanged.
Returns the final stored state and the error the caller observes. -/
def Upsert (parseURL : String → Except String Unit) (f : TxFaults)
    (now : Int) (db : List Row) (k : Kite) (u : String) :
    List Row × Option String :=
  match parseURL u with
  | Except.error e => (db, some e)
  | Except.ok _ =>
    match f.beginErr with
    | some e => (db, some e)
    | none =>
      match upsertBody f now db k u with
      | (some _, _) => (db, f.rollbackErr)
      | (none, txdb) =>
        match f.commitErr with
        | some e => (db, some e)
        | none => (txdb, none)

/-- Embedding of `Postgres.Add`: validate the url, build the insert
statement, execute it; a primary-key conflict on an existing id is a store
error, otherwise the new row is appended. -/
def Add (parseURL : String → Except String Unit)
    (buildErr execErr : Option String) (now : Int) (db : List Row)
    (k : Kite) (u : String) : List Row × Option String :=
  match parseURL u with
  | Except.error e => (db, some e)
  | Except.ok _ =>
    match buildErr with
    | some e => (db, some e)
    | none =>
      match execErr with
      | some e => (db, some e)
      | none =>
        if db.any (fun r => r.id == k.id) then
          (db, some "duplicate key value violates unique constraint")
        else (db ++ [insertRow k u now], none)

/-- Embedding of `Postgres.Update`: validate the url, then execute the
UPDATE by id with no insert fallback; zero affected rows is not an
error. -/
def Update (parseURL : String → Except String Unit) (execErr : Option String)
    (now : Int) (db : List Row) (k : Kite) (u : String) :
    List Row × Option String :=
  match parseURL u with
  | Except.error e => (db, some e)
  | Except.ok _ =>
    match execErr with
    | some e => (db, some e)
    | none => (db.map (refreshRow k.id u now), none)

/-- Embedding of `Postgres.CleanExpiredRows`: the expiry duration (in
nanoseconds) is divided by one second with Go's integer `Duration`
division (`int64(expire/time.Second)`), and the DELETE removes every row
with `updated_at < now - (INTERVAL one second) * seconds`; it returns the
kept table and the number of rows removed, or the injected store error. -/
def CleanExpiredRows (execErr : Option String) (now : Int) (expire : Nat)
    (db : List Row) : List Row × Except String Nat :=
  let secs : Int := (expire / 1000000000 : Nat)
  match execErr with
  | some e => (db, Except.error e)
  | none =>
    ((db.filter (fun r => !decide (r.updated_at < now - secs * 1000000000))),
     Except.ok (db.filter
       (fun r => decide (r.updated_at < now - secs * 1000000000))).length)

/-- Environment of one run of the cleaner: the injected store fault, the
current time and the table contents at that tick. -/
structure TickEnv where
  execErr : Option String
  now : Int
  db : List Row

/-- Log output of one cleaner run. -/
inductive LogEvent where
  | warning (msg : String)
  | affected (rows : Nat)
  deriving DecidableEq

/-- Embedding of `RunCleaner`'s `cleanFunc`: a failing run logs a warning,
a run that removed a non-zero number of rows logs the count, a run that
removed nothing logs nothing. -/
def cleanFunc (expire : Nat) (t : TickEnv) : Option LogEvent :=
  match CleanExpiredRows t.execErr t.now expire t.db with
  | (_, Except.error e) => some (LogEvent.warning e)
  | (_, Except.ok n) => if n ≠ 0 then some (LogEvent.affected n) else none

/-- Embedding of `RunCleaner`'s schedule: `cleanFunc` runs once per tick
(the first list entry standing for the immediate run at startup), each
tick independent of the outcome of the previous ones. -/
def RunCleaner (expire : Nat) (ticks : List TickEnv) : List (Option LogEvent) :=
  ticks.map (cleanFunc expire)

/-! Helper lemmas shared by the claim theorems. -/

/-- A fold that appends one element per accepted input equals the filterMap
of the input list appended to the accumulator. -/
theorem foldl_skip_append {α β : Type} (p : α → Prop) [DecidablePred p]
    (g : α → β) (l : List α) (acc : List β) :
    l.foldl (fun ac a => if p a then ac else ac ++ [g a]) acc
      = acc ++ l.filterMap (fun a => if p a then none else some (g a)) := by
  induction l generalizing acc with
  | nil => simp
  | cons x xs ih =>
    by_cases hx : p x
    · simp [List.foldl_cons, hx, ih]
    · simp [List.foldl_cons, hx, ih]

/-- Refreshing by an id absent from the table is the identity. -/
theorem map_refreshRow_of_absent (id u : String) (now : Int) (db : List Row)
    (habs : ∀ r ∈ db, r.id ≠ id) : db.map (refreshRow id u now) = db := by
  induction db with
  | nil => rfl
  | cons x xs ih =>
    have hx : refreshRow id u now x = x := by
      simp [refreshRow, habs x (List.mem_cons_self x xs)]
    rw [List.map_cons, hx, ih (fun r hr => habs r (List.mem_cons_of_mem x hr))]

/-! Claim theorems. -/

/-- The all-empty query. -/
def emptyQuery : KontrolQuery :=
  { username := "", environment := "", name := "", version := "",
    region := "", hostname := "", id := "" }

/-- C4: a query with every identity field empty makes `selectQuery` fail,
and `Get` returns that error for every database contents and every
environment (in particular whether or not the fetch step would fail):
no fetch is executed. -/
theorem get_empty_query_rejected {VC : Type} (env : GetEnv VC) (db : List Row) :
    selectQuery emptyQuery = Except.error "all query fields are empty" ∧
    Get env db emptyQuery = Except.error "all query fields are empty" :=
  ⟨rfl, rfl⟩

/-- C5: for a query with at least one non-empty field, `selectQuery`
produces exactly one equality clause per non-empty field, in `keyOrder`
order, with `name` renamed to column `kitename`; empty fields are skipped
without terminating the scan, so a non-empty field after an empty one
still contributes its clause (skip-and-continue semantics). -/
theorem selectQuery_skip_and_continue (q : KontrolQuery)
    (h : ∃ key ∈ keyOrder, q.fieldsMap key ≠ "") :
    selectQuery q = Except.ok (keyOrder.filterMap (fun key =>
      if q.fieldsMap key = "" then none
      else some (if key = "name" then "kitename" else key, q.fieldsMap key))) := by
  simp only [selectQuery]
  rw [foldl_skip_append (fun key => q.fieldsMap key = "")
      (fun key => (if key = "name" then "kitename" else key, q.fieldsMap key))
      keyOrder []]
  rw [List.nil_append, if_neg]
  intro hnil
  obtain ⟨key, hk, hne⟩ := h
  have h2 := List.filterMap_eq_nil_iff.mp hnil key hk
  rw [if_neg hne] at h2
  exact Option.some_ne_none _ h2

/-- Witness for C5: username empty, environment and version non-empty:
both later fields still contribute clauses. -/
def qSkip : KontrolQuery :=
  { username := "", environment := "prod", name := "", version := "1.2.3",
    region := "", hostname := "", id := "" }

theorem selectQuery_skip_and_continue_witness :
    (∃ key ∈ keyOrder, qSkip.fieldsMap key ≠ "") ∧
    selectQuery qSkip
      = Except.ok [("environment", "prod"), ("version", "1.2.3")] :=
  ⟨by decide, selectQuery_skip_and_continue qSkip (by decide)⟩

/-- C6: when the fetch yields exactly one row, `Get` returns it unchanged:
no version-constraint filter and no shuffle is applied, whatever the
active plan (in particular when a constraint is active that the row would
fail). -/
theorem get_single_row_fast_path {VC : Type} (env : GetEnv VC)
    (db : List Row) (q : KontrolQuery) (clauses : List (String × String))
    (copt : Option (VC × String)) (r : Row)
    (hplan : getPlan env q = Except.ok (clauses, copt))
    (hq : env.queryErr = none)
    (hone : db.filter (fun row => rowMatches clauses row) = [r]) :
    Get env db q = Except.ok [r] := by
  simp only [Get, hplan, hq, hone]
  simp

/-- Witness environment for C6: the version field is an active constraint
and the post-filter would drop every row; the fast path ignores both. -/
def envOne : GetEnv Unit :=
  { newVersionOk := fun _ => false,
    newConstraint := fun _ => Except.ok (),
    filterK := fun _ _ _ => [],
    shuffleK := fun _ => [],
    queryErr := none }

def rowAlice : Row :=
  { username := "alice", environment := "prod", kitename := "math",
    version := "0.0.1", region := "eu", hostname := "h1", id := "id-1",
    url := "http://a:4000", created_at := 0, updated_at := 0 }

def qAlice : KontrolQuery :=
  { username := "alice", environment := "", name := "", version := ">= 1.0",
    region := "", hostname := "", id := "" }

theorem get_single_row_fast_path_witness :
    getPlan envOne qAlice
      = Except.ok ([("username", "alice")], some ((), "/")) ∧
    envOne.queryErr = none ∧
    List.filter (fun row => rowMatches [("username", "alice")] row) [rowAlice]
      = [rowAlice] ∧
    Get envOne [rowAlice] qAlice = Except.ok [rowAlice] :=
  ⟨rfl, rfl, rfl,
    get_single_row_fast_path envOne [rowAlice] qAlice [("username", "alice")]
      (some ((), "/")) rowAlice rfl rfl rfl⟩

/-- C3: when the version field is non-empty and not an exact version, a
constraint-parse failure is returned by `Get` for every database contents
(before any fetch); a successful parse rebuilds the predicate from the
username/environment/name-only query and retains the slash-joined
region/hostname/id suffix, which is handed to the post-fetch filter
whenever the fetched set does not have exactly one element. -/
theorem get_version_constraint_path {VC : Type} (env : GetEnv VC)
    (q : KontrolQuery) (clauses : List (String × String))
    (hv : env.newVersionOk q.version = false) (hne : q.version ≠ "")
    (hq : selectQuery q = Except.ok clauses) :
    (∀ e, env.newConstraint q.version = Except.error e →
      ∀ db, Get env db q = Except.error e) ∧
    (∀ vc, env.newConstraint q.version = Except.ok vc →
      ∀ clauses2, selectQuery (nameOnlyQuery q) = Except.ok clauses2 →
        getPlan env q = Except.ok (clauses2, some (vc,
          "/" ++ trimRightSlash (q.region ++ "/" ++ q.hostname ++ "/" ++ q.id))) ∧
        (env.queryErr = none →
          ∀ db, (db.filter (fun row => rowMatches clauses2 row)).length ≠ 1 →
            Get env db q = Except.ok (env.shuffleK (env.filterK
              (db.filter (fun row => rowMatches clauses2 row)) vc
              ("/" ++ trimRightSlash (q.region ++ "/" ++ q.hostname ++ "/" ++ q.id)))))) := by
  have hcond : (!env.newVersionOk q.version && q.version != "") = true := by
    rw [hv]
    simp [bne_iff_ne, hne]
  constructor
  · intro e hce db
    simp only [Get, getPlan, hq, hcond, if_true, hce]
  · intro vc hcv clauses2 hq2
    have hplan : getPlan env q
        = Except.ok (clauses2, some (vc, keyRestOf q)) := by
      simp only [getPlan, hq, hcond, if_true, hcv, hq2]
    refine ⟨hplan, ?_⟩
    intro hqe db hlen
    simp only [Get, hplan, hqe]
    rw [if_neg hlen]
    rfl

/-- Witness environment and query for C3: the constraint parses and the
predicate is rebuilt from the username field only, the region retained in
the suffix. -/
def envCons : GetEnv Nat :=
  { newVersionOk := fun _ => false,
    newConstraint := fun _ => Except.ok 7,
    filterK := fun ks _ _ => ks,
    shuffleK := fun ks => ks,
    queryErr := none }

def qCons : KontrolQuery :=
  { username := "bob", environment := "", name := "", version := "> 1.0",
    region := "eu", hostname := "", id := "" }

theorem get_version_constraint_path_witness :
    envCons.newVersionOk qCons.version = false ∧
    qCons.version ≠ "" ∧
    selectQuery qCons
      = Except.ok [("username", "bob"), ("version", "> 1.0"), ("region", "eu")] ∧
    envCons.newConstraint qCons.version = Except.ok 7 ∧
    selectQuery (nameOnlyQuery qCons) = Except.ok [("username", "bob")] ∧
    getPlan envCons qCons
      = Except.ok ([("username", "bob")], some (7, "/eu")) :=
  ⟨rfl, by decide, rfl, rfl, rfl,
    ((get_version_constraint_path envCons qCons
        [("username", "bob"), ("version", "> 1.0"), ("region", "eu")]
        rfl (by decide) rfl).2 7 rfl [("username", "bob")] rfl).1⟩

/-- C2: when the url fails to parse, each of `Upsert`, `Add` and `Update`
returns that error and leaves the stored state unchanged, whatever faults
the store would have produced later: the mutation branch is unreachable. -/
theorem registration_rejects_malformed_url
    (parseURL : String → Except String Unit) (u e : String)
    (hp : parseURL u = Except.error e) (f : TxFaults)
    (addBuildErr addExecErr updExecErr : Option String) (now : Int)
    (db : List Row) (k : Kite) :
    Upsert parseURL f now db k u = (db, some e) ∧
    Add parseURL addBuildErr addExecErr now db k u = (db, some e) ∧
    Update parseURL updExecErr now db k u = (db, some e) := by
  refine ⟨?_, ?_, ?_⟩ <;> simp only [Upsert, Add, Update, hp]

/-- Abstract url parser used by the witnesses: rejects the empty string and
a string with no protocol scheme, accepts everything else. -/
def parseURLW : String → Except String Unit := fun s =>
  if s = "" then Except.error "empty url"
  else if s = ":4000" then Except.error "parse :4000: missing protocol scheme"
  else Except.ok ()

def kiteW : Kite :=
  { username := "alice", environment := "prod", name := "math",
    version := "0.0.1", region := "eu", hostname := "h1", id := "id-1" }

def noFaults : TxFaults :=
  { beginErr := none, updateErr := none, rowsAffectedErr := none,
    insertBuildErr := none, insertErr := none, rollbackErr := none,
    commitErr := none }

theorem registration_rejects_malformed_url_witness :
    parseURLW ":4000" = Except.error "parse :4000: missing protocol scheme" ∧
    Upsert parseURLW noFaults 3 [rowAlice] kiteW ":4000"
      = ([rowAlice], some "parse :4000: missing protocol scheme") ∧
    Add parseURLW none none 3 [rowAlice] kiteW ":4000"
      = ([rowAlice], some "parse :4000: missing protocol scheme") ∧
    Update parseURLW none 3 [rowAlice] kiteW ":4000"
      = ([rowAlice], some "parse :4000: missing protocol scheme") :=
  ⟨rfl,
    registration_rejects_malformed_url parseURLW ":4000"
      "parse :4000: missing protocol scheme" rfl noFaults none none none 3
      [rowAlice] kiteW⟩

/-- C8: `Update` on an id with no stored row, with a valid url and a
healthy store, succeeds with zero effect: no error, no insert fallback,
stored state unchanged. -/
theorem update_absent_id_noop (parseURL : String → Except String Unit)
    (u : String) (hp : parseURL u = Except.ok ()) (now : Int)
    (db : List Row) (k : Kite) (habs : ∀ r ∈ db, r.id ≠ k.id) :
    Update parseURL none now db k u = (db, none) := by
  simp only [Update, hp]
  rw [map_refreshRow_of_absent k.id u now db habs]

def kiteAbsent : Kite :=
  { username := "carol", environment := "prod", name := "math",
    version := "0.0.2", region := "eu", hostname := "h2", id := "id-9" }

theorem update_absent_id_noop_witness :
    parseURLW "http://b:4001" = Except.ok () ∧
    (∀ r ∈ [rowAlice], r.id ≠ kiteAbsent.id) ∧
    Update parseURLW none 3 [rowAlice] kiteAbsent "http://b:4001"
      = ([rowAlice], none) :=
  ⟨rfl, by decide,
    update_absent_id_noop parseURLW "http://b:4001" rfl 3 [rowAlice]
      kiteAbsent (by decide)⟩

/-- C9: a successful refresh of an existing row, through `Upsert`'s
heartbeat path or through `Update`, maps the table through `refreshRow`,
which changes only the url and updated_at columns of the rows whose id
matches: identity columns and created_at keep their values and rows with a
different id are untouched. -/
theorem refresh_changes_only_url_updated_at
    (parseURL : String → Except String Unit) (u : String)
    (hp : parseURL u = Except.ok ()) (f : TxFaults)
    (h1 : f.beginErr = none) (h2 : f.updateErr = none)
    (h3 : f.rowsAffectedErr = none) (h4 : f.commitErr = none)
    (now : Int) (db : List Row) (k : Kite)
    (hex : ∃ r ∈ db, r.id = k.id) :
    Upsert parseURL f now db k u = (db.map (refreshRow k.id u now), none) ∧
    Update parseURL none now db k u = (db.map (refreshRow k.id u now), none) ∧
    (∀ r : Row, r.id ≠ k.id → refreshRow k.id u now r = r) ∧
    (∀ r : Row,
      (refreshRow k.id u now r).username = r.username ∧
      (refreshRow k.id u now r).environment = r.environment ∧
      (refreshRow k.id u now r).kitename = r.kitename ∧
      (refreshRow k.id u now r).version = r.version ∧
      (refreshRow k.id u now r).region = r.region ∧
      (refreshRow k.id u now r).hostname = r.hostname ∧
      (refreshRow k.id u now r).id = r.id ∧
      (refreshRow k.id u now r).created_at = r.created_at) ∧
    (∀ r : Row, r.id = k.id →
      (refreshRow k.id u now r).url = u ∧
      (refreshRow k.id u now r).updated_at = now) := by
  have hlen : (db.filter (fun r => r.id == k.id)).length ≠ 0 := by
    obtain ⟨r, hr, hid⟩ := hex
    have hmem : r ∈ db.filter (fun r => r.id == k.id) :=
      List.mem_filter.mpr ⟨hr, by simp [hid]⟩
    have := List.length_pos_of_mem hmem
    omega
  refine ⟨?_, ?_, ?_, ?_, ?_⟩
  · simp only [Upsert, hp, h1, upsertBody, h2, h3]
    rw [if_pos hlen]
    simp only [h4]
  · simp only [Update, hp]
  · intro r hr
    simp [refreshRow, hr]
  · intro r
    unfold refreshRow
    split <;> simp
  · intro r hr
    simp [refreshRow, hr]

theorem refresh_changes_only_url_updated_at_witness :
    parseURLW "http://c:5000" = Except.ok () ∧
    noFaults.beginErr = none ∧ noFaults.updateErr = none ∧
    noFaults.rowsAffectedErr = none ∧ noFaults.commitErr = none ∧
    (∃ r ∈ [rowAlice], r.id = kiteW.id) ∧
    Upsert parseURLW noFaults 9 [rowAlice] kiteW "http://c:5000"
      = ([{ rowAlice with url := "http://c:5000", updated_at := 9 }], none) :=
  ⟨rfl, rfl, rfl, rfl, rfl, by decide,
    (refresh_changes_only_url_updated_at parseURLW "http://c:5000" rfl
      noFaults rfl rfl rfl rfl 9 [rowAlice] kiteW (by decide)).1⟩

/-- C1 (refuted by the code): when the UPDATE step of `Upsert`'s
transaction fails and the rollback succeeds, the transaction is rolled
back and the stored state is unchanged, but the caller observes a nil
error: the deferred handler executes `err = tx.Rollback()`, so the
rollback's nil result replaces the error that aborted the transaction. -/
theorem upsert_rollback_masks_error (parseURL : String → Except String Unit)
    (u e : String) (hp : parseURL u = Except.ok ()) (f : TxFaults)
    (h1 : f.beginErr = none) (h2 : f.updateErr = some e)
    (h3 : f.rollbackErr = none) (now : Int) (db : List Row) (k : Kite) :
    Upsert parseURL f now db k u = (db, none) := by
  simp only [Upsert, hp, h1, upsertBody, h2, h3]

def failUpdate : TxFaults :=
  { beginErr := none, updateErr := some "connection reset by peer",
    rowsAffectedErr := none, insertBuildErr := none, insertErr := none,
    rollbackErr := none, commitErr := none }

theorem upsert_rollback_masks_error_witness :
    parseURLW "http://c:5000" = Except.ok () ∧
    failUpdate.updateErr = some "connection reset by peer" ∧
    Upsert parseURLW failUpdate 9 [rowAlice] kiteW "http://c:5000"
      = ([rowAlice], none) :=
  ⟨rfl, rfl,
    upsert_rollback_masks_error parseURLW "http://c:5000"
      "connection reset by peer" rfl failUpdate rfl rfl rfl 9 [rowAlice]
      kiteW⟩

/-- A row 1.5 seconds stale when now = 10 seconds (times in
nanoseconds). -/
def rowFrac : Row :=
  { username := "alice", environment := "prod", kitename := "math",
    version := "0.0.1", region := "eu", hostname := "h1", id := "id-1",
    url := "http://a:4000", created_at := 0, updated_at := 8500000000 }

/-- C7 counterexample: with an expiry of 1.9 seconds the sweep deletes a
row only 1.5 seconds stale, although that row's updated_at is not older
than now minus the expiry age: the run does not delete exactly the rows
older than now minus the expiry duration. -/
theorem cleaner_deletes_row_younger_than_expiry :
    (CleanExpiredRows none 10000000000 1900000000 [rowFrac]).1 = [] ∧
    ¬ (rowFrac.updated_at < 10000000000 - 1900000000) := by
  exact ⟨by decide, by decide⟩

/-- Rows 21 and 19 seconds stale when now = 100 seconds (times in
nanoseconds). -/
def row21 : Row :=
  { username := "alice", environment := "prod", kitename := "math",
    version := "0.0.1", region := "eu", hostname := "h1", id := "id-21",
    url := "http://a:4000", created_at := 0, updated_at := 79000000000 }

def row19 : Row :=
  { username := "alice", environment := "prod", kitename := "math",
    version := "0.0.1", region := "eu", hostname := "h2", id := "id-19",
    url := "http://b:4000", created_at := 0, updated_at := 81000000000 }

/-- C7 (amended): one sweeper run deletes exactly the rows whose
updated_at is older than now minus the expiry truncated to whole seconds
and reports the count of removed rows; with an expiry of 20 seconds a row
last updated 21 seconds ago is deleted while one last updated 19 seconds
ago survives; a failing run logs a warning, a run that removes zero rows
logs nothing, and one tick's outcome never prevents the following
ticks from running. -/
theorem cleaner_behaviour :
    (∀ (expire : Nat) (now : Int) (db : List Row),
      CleanExpiredRows none now expire db
        = (db.filter (fun r => !decide (r.updated_at
              < now - ((expire / 1000000000 : Nat) : Int) * 1000000000)),
           Except.ok (db.filter (fun r => decide (r.updated_at
              < now - ((expire / 1000000000 : Nat) : Int) * 1000000000))).length)) ∧
    CleanExpiredRows none 100000000000 20000000000 [row21, row19]
      = ([row19], Except.ok 1) ∧
    (∀ (expire : Nat) (t : TickEnv) (e : String), t.execErr = some e →
      cleanFunc expire t = some (LogEvent.warning e)) ∧
    (∀ (expire : Nat) (t : TickEnv), t.execErr = none →
      (t.db.filter (fun r => decide (r.updated_at
          < t.now - ((expire / 1000000000 : Nat) : Int) * 1000000000))).length = 0 →
      cleanFunc expire t = none) ∧
    (∀ (expire : Nat) (t : TickEnv) (rest : List TickEnv),
      RunCleaner expire (t :: rest)
        = cleanFunc expire t :: RunCleaner expire rest) := by
  refine ⟨fun expire now db => rfl, rfl, ?_, ?_, fun expire t rest => rfl⟩
  · intro expire t e he
    simp only [cleanFunc, CleanExpiredRows, he]
  · intro expire t he hzero
    simp only [cleanFunc, CleanExpiredRows, he, hzero]
    simp

def tickFail : TickEnv :=
  { execErr := some "connection refused", now := 100000000000, db := [row19] }

def tickQuiet : TickEnv :=
  { execErr := none, now := 100000000000, db := [row19] }

theorem cleaner_behaviour_witness :
    tickFail.execErr = some "connection refused" ∧
    cleanFunc 20000000000 tickFail
      = some (LogEvent.warning "connection refused") ∧
    tickQuiet.execErr = none ∧
    cleanFunc 20000000000 tickQuiet = none ∧
    RunCleaner 20000000000 [tickFail, tickQuiet]
      = [some (LogEvent.warning "connection refused"), none] :=
  ⟨rfl,
    cleaner_behaviour.2.2.1 20000000000 tickFail "connection refused" rfl,
    rfl,
    cleaner_behaviour.2.2.2.1 20000000000 tickQuiet rfl (by decide),
    rfl⟩

/-- C10: the expiry duration is truncated to whole seconds before the
comparison: the kept rows are exactly those not older than now minus
floor(expire in seconds) seconds, a sub-second expiry behaves as an expiry
of zero, and an expiry of 1.9 seconds behaves as one of 1 second. -/
theorem cleanExpiredRows_truncates_to_seconds (expire : Nat) (now : Int)
    (db : List Row) :
    (CleanExpiredRows none now expire db).1
      = db.filter (fun r => !decide (r.updated_at
          < now - ((expire / 1000000000 : Nat) : Int) * 1000000000)) ∧
    (expire < 1000000000 →
      CleanExpiredRows none now expire db
        = CleanExpiredRows none now 0 db) ∧
    CleanExpiredRows none now 1900000000 db
      = CleanExpiredRows none now 1000000000 db := by
  refine ⟨rfl, ?_, rfl⟩
  intro h
  simp only [CleanExpiredRows, Nat.div_eq_of_lt h]

theorem cleanExpiredRows_truncates_to_seconds_witness :
    (5 : Nat) < 1000000000 ∧
    CleanExpiredRows none 100000000000 5 [row21, row19]
      = CleanExpiredRows none 100000000000 0 [row21, row19] :=
  ⟨by decide,
    (cleanExpiredRows_truncates_to_seconds 5 100000000000 [row21, row19]).2.1
      (by decide)⟩

end Kontrol
